import Mathlib

/-!
Shallow embedding of the libcork path/file subsystem
(`src/libcork/posix/files.c`) and the ring buffer
(`src/libcork/ds/ring-buffer.c`).

Paths are modelled as `List Char` (the growable `cork_buffer` holding the
path string).  Filesystem effects are modelled by an explicit `World`
state: a stat oracle, failure-injection oracles for each syscall, the C
`errno` cell, and the libcork error slot set by `cork_system_error_set`.
-/

/-- Classification tags from `enum cork_file_type` (os/files.h). -/
inductive CorkFileType where
  | CORK_FILE_MISSING
  | CORK_FILE_REGULAR
  | CORK_FILE_DIRECTORY
  | CORK_FILE_SYMLINK
  | CORK_FILE_UNKNOWN
deriving DecidableEq, Inhabited

/-- POSIX file-type mask `S_IFMT`. -/
def S_IFMT : Nat := 0xF000

/-- POSIX regular-file type bits `S_IFREG`. -/
def S_IFREG : Nat := 0x8000

/-- POSIX directory type bits `S_IFDIR`. -/
def S_IFDIR : Nat := 0x4000

/-- POSIX symlink type bits `S_IFLNK`. -/
def S_IFLNK : Nat := 0xA000

/-- errno value `ENOENT` (entry does not exist). -/
def ENOENT : Nat := 2

/-- errno value `ENOTDIR` (a path component is not a directory). -/
def ENOTDIR : Nat := 20

/-- errno value `EEXIST`. -/
def EEXIST : Nat := 17

/-- errno value `EACCES`. -/
def EACCES : Nat := 13

/-- Modelled from the spec: policy flag `Permissive` (`CORK_FILE_PERMISSIVE`),
declared in the repository's os/files.h which is not under src/; a bit
distinct from `Recursive`. -/
def CORK_FILE_PERMISSIVE : Nat := 1

/-- Modelled from the spec: policy flag `Recursive` (`CORK_FILE_RECURSIVE`),
declared in the repository's os/files.h which is not under src/; a bit
distinct from `Permissive`. -/
def CORK_FILE_RECURSIVE : Nat := 2

/-- A path's character buffer (`struct cork_path`, field `given`). -/
abbrev CPath := List Char

/-- `cork_path_clone`: deep copy of the buffer; in the value model the
copy is the same list value. -/
def cork_path_clone (other : CPath) : CPath := other

/-- `cork_path_append` (files.c lines 131-154): empty `more` is a no-op;
`more` starting with '/' replaces the whole contents; otherwise `more` is
appended, inserting a '/' if the current buffer is nonempty and does not
already end in one. -/
def cork_path_append (path : CPath) (more : CPath) : CPath :=
  if more = [] then path
  else if more.head? = some '/' then more
  else if path ≠ [] ∧ path.getLast? ≠ some '/' then path ++ '/' :: more
  else path ++ more

/-- `cork_path_join` (files.c lines 156-162): clone then append. -/
def cork_path_join (other : CPath) (more : CPath) : CPath :=
  cork_path_append (cork_path_clone other) more

/-- Index of the last occurrence of `c` in `cs` (C `strrchr`, as an
offset into the buffer), `none` when `c` does not occur. -/
def strrchr : CPath → Char → Option Nat
  | [], _ => none
  | x :: rest, c =>
    match strrchr rest c with
    | some i => some (i + 1)
    | none => if x = c then some 0 else none

/-- `cork_path_set_basename` (files.c lines 179-191): keep the substring
after the last '/'; a path without '/' is left unchanged. -/
def cork_path_set_basename (path : CPath) : CPath :=
  match strrchr path '/' with
  | none => path
  | some i => path.drop (i + 1)

/-- `cork_path_set_dirname` (files.c lines 202-213): truncate to the
substring before the last '/'; a path without '/' becomes empty. -/
def cork_path_set_dirname (path : CPath) : CPath :=
  match strrchr path '/' with
  | none => []
  | some i => path.take i

/-- `cork_path_dirname` (files.c lines 215-221): clone then set_dirname. -/
def cork_path_dirname (other : CPath) : CPath :=
  cork_path_set_dirname (cork_path_clone other)

/-- `cork_path_basename` (files.c lines 193-199): clone then set_basename. -/
def cork_path_basename (other : CPath) : CPath :=
  cork_path_set_basename (cork_path_clone other)

/-- Answer of the `stat` syscall for one path: `found st_mode` on success
(the `st_mode` bits of the entry), or `failed e` with the errno it sets. -/
inductive StatAns where
  | found (st_mode : Nat)
  | failed (err : Nat)
deriving DecidableEq

/-- How one directory listing ends: normal end of listing, or a `readdir`
failure that returns NULL after setting errno to `err`. -/
inductive ListTerm where
  | eof
  | fail (err : Nat)
deriving DecidableEq

/-- The OS/filesystem world threaded through every operation: the stat
oracle, per-syscall failure injection, the directory listings, the C
`errno` cell, the libcork error slot (`corkErr`, set by
`cork_system_error_set`), and a log of attempted `mkdir` syscalls. -/
structure World where
  fs : CPath → StatAns
  opendirFail : CPath → Option Nat
  closedirFail : CPath → Option Nat
  listing : CPath → List CPath × ListTerm
  mkdirFail : CPath → Option Nat
  rmdirFail : CPath → Option Nat
  unlinkFail : CPath → Option Nat
  errno : Nat
  corkErr : Option Nat
  mkdirLog : List (CPath × Nat)

/-- Modelled from the spec: `cork_system_error_set` (libcork/core/error.h,
not under src/) records a SystemError wrapping the current OS error code
(`errno`). -/
def cork_system_error_set (w : World) : World :=
  { w with corkErr := some w.errno }

/-- Modelled from the spec: `cork_system_error_set_explicit` records a
SystemError wrapping the explicitly given OS error code. -/
def cork_system_error_set_explicit (e : Nat) (w : World) : World :=
  { w with corkErr := some e }

/-- `struct cork_file`: an owned path, the cached classification tag, and
the validity flag `has_stat`. -/
structure cork_file where
  path : CPath
  type : CorkFileType
  has_stat : Bool
deriving DecidableEq

/-- `cork_file_init` (files.c lines 235-240): attach the path, validity
flag clear (the tag field is uninitialized in C; the model picks UNKNOWN). -/
def cork_file_init (path : CPath) : cork_file :=
  { path := path, type := CorkFileType.CORK_FILE_UNKNOWN, has_stat := false }

/-- `cork_file_reset` (files.c lines 256-260): clear the validity flag. -/
def cork_file_reset (file : cork_file) : cork_file :=
  { file with has_stat := false }

/-- `cork_file_stat` (files.c lines 281-314): memoized classification.
A `stat` failure with ENOENT/ENOTDIR is memoized as MISSING and succeeds;
any other failure raises a SystemError and leaves the cache invalid; on
success the tag is derived from the `st_mode` type bits.  The failing
syscall also leaves its errno in the world's errno cell. -/
def cork_file_stat (file : cork_file) (w : World) : Int × cork_file × World :=
  if file.has_stat then (0, file, w)
  else
    match w.fs file.path with
    | StatAns.failed e =>
      let w1 := { w with errno := e }
      if e = ENOENT ∨ e = ENOTDIR then
        (0, { file with type := CorkFileType.CORK_FILE_MISSING, has_stat := true }, w1)
      else
        (-1, file, cork_system_error_set w1)
    | StatAns.found m =>
      let t :=
        if m &&& S_IFMT = S_IFREG then CorkFileType.CORK_FILE_REGULAR
        else if m &&& S_IFMT = S_IFDIR then CorkFileType.CORK_FILE_DIRECTORY
        else if m &&& S_IFMT = S_IFLNK then CorkFileType.CORK_FILE_SYMLINK
        else CorkFileType.CORK_FILE_UNKNOWN
      (0, { file with type := t, has_stat := true }, w)

/-- The `mkdir` syscall: every attempt is logged with its mode; injected
failures set errno and return -1; success records the new directory in
the stat oracle. -/
def sys_mkdir (p : CPath) (mode : Nat) (w : World) : Int × World :=
  let w0 := { w with mkdirLog := w.mkdirLog ++ [(p, mode)] }
  match w0.mkdirFail p with
  | some e => (-1, { w0 with errno := e })
  | none => (0, { w0 with fs := fun q => if q = p then StatAns.found S_IFDIR else w0.fs q })

/-- The `unlink` syscall: injected failures set errno and return -1;
success removes the entry from the stat oracle. -/
def sys_unlink (p : CPath) (w : World) : Int × World :=
  match w.unlinkFail p with
  | some e => (-1, { w with errno := e })
  | none => (0, { w with fs := fun q => if q = p then StatAns.failed ENOENT else w.fs q })

/-- The `rmdir` syscall: injected failures set errno and return -1;
success removes the entry from the stat oracle. -/
def sys_rmdir (p : CPath) (w : World) : Int × World :=
  match w.rmdirFail p with
  | some e => (-1, { w with errno := e })
  | none => (0, { w with fs := fun q => if q = p then StatAns.failed ENOENT else w.fs q })

/-- A directory-walk visitor (`cork_file_directory_iterator`): receives the
reusable child file and the entry name, may mutate the world, and returns
an int status (non-zero aborts the walk). -/
abbrev Visitor := cork_file → CPath → World → Int × World

/-- The walker's loop (files.c lines 353-380) over the remaining directory
entries, with the loop's errno discipline made explicit: the errno value
observed at each `readdir` call is recorded in the `reads` ghost trace;
"." and ".." are skipped by `continue` (no errno reset on that path); each
processed entry appends the name to the reusable child path, stats the
child (`ei_check`), runs the visitor (`ei_check`), truncates the path back
to the directory prefix, resets the child's cache, and clears errno.  When
`readdir` returns NULL (the listing is exhausted), a `fail` terminal first
sets errno; a non-zero errno is then reported as a SystemError (lines
382-386), otherwise the loop completes normally. -/
def iterLoop (visitor : Visitor) (dir_path_size : Nat) :
    List CPath → ListTerm → cork_file → World → List Nat → Int × World × List Nat
  | [], term, _child, w, reads =>
    match term with
    | ListTerm.eof =>
      let reads1 := reads ++ [w.errno]
      if w.errno ≠ 0 then (-1, cork_system_error_set w, reads1) else (0, w, reads1)
    | ListTerm.fail e =>
      let reads1 := reads ++ [w.errno]
      let w1 := { w with errno := e }
      if w1.errno ≠ 0 then (-1, cork_system_error_set w1, reads1) else (0, w1, reads1)
  | name :: rest, term, child, w, reads =>
    let reads1 := reads ++ [w.errno]
    if name = ['.'] ∨ name = ['.', '.'] then
      iterLoop visitor dir_path_size rest term child w reads1
    else
      let child1 := { child with path := cork_path_append child.path name }
      match cork_file_stat child1 w with
      | (src, child2, w1) =>
        if src ≠ 0 then (-1, w1, reads1)
        else
          match visitor child2 name w1 with
          | (vrc, w2) =>
            if vrc ≠ 0 then (-1, w2, reads1)
            else
              let child3 :=
                { child2 with path := (child2.path.take dir_path_size), has_stat := false }
              let w3 := { w2 with errno := 0 }
              iterLoop visitor dir_path_size rest term child3 w3 reads1

/-- `cork_file_iterate_directory` (files.c lines 337-396): open the
directory (SystemError on failure), clone the directory path into a
reusable child file, clear errno, run the loop, then release the child and
close the directory on every exit path (`rii_check_posix(closedir)`).
Returns (status, the directory file as left by the call, final world,
ghost trace of errno values observed at each `readdir`). -/
def cork_file_iterate_directory (file : cork_file) (visitor : Visitor) (w : World) :
    Int × cork_file × World × List Nat :=
  match w.opendirFail file.path with
  | some e => (-1, file, cork_system_error_set { w with errno := e }, [])
  | none =>
    let child_path := cork_path_clone file.path
    let child_file := cork_file_init child_path
    let dir_path_size := child_path.length
    match w.listing file.path with
    | (names, term) =>
      match iterLoop visitor dir_path_size names term child_file { w with errno := 0 } [] with
      | (rc, w1, reads) =>
        match w1.closedirFail file.path with
        | some e => (-1, file, cork_system_error_set { w1 with errno := e }, reads)
        | none => (rc, file, w1, reads)

/-- `cork_file_mkdir_one` (files.c lines 398-445), with a fuel bound on
the parent recursion (exhausted fuel yields a bare failure; the public
entry point supplies enough fuel for any path).  Classify the target;
an existing directory is EEXIST unless PERMISSIVE; any other existing
entry is EEXIST; for a missing target with RECURSIVE, the parent path is
`cork_path_dirname` (SetDirname of a clone), an empty parent is assumed to
exist, otherwise the parent is made with PERMISSIVE forced on; finally the
leaf is created by `mkdir` (`rii_check_posix`: failure raises SystemError). -/
def cork_file_mkdir_one : Nat → cork_file → Nat → Nat → World → Int × cork_file × World
  | 0, file, _mode, _flags, w => (-1, file, w)
  | fuel + 1, file, mode, flags, w =>
    match cork_file_stat file w with
    | (src, file1, w1) =>
      if src ≠ 0 then (-1, file1, w1)
      else if file1.type = CorkFileType.CORK_FILE_DIRECTORY then
        if flags &&& CORK_FILE_PERMISSIVE = 0 then
          (-1, file1, cork_system_error_set_explicit EEXIST w1)
        else (0, file1, w1)
      else if file1.type ≠ CorkFileType.CORK_FILE_MISSING then
        (-1, file1, cork_system_error_set_explicit EEXIST w1)
      else
        let parentStep : Int × World :=
          if flags &&& CORK_FILE_RECURSIVE ≠ 0 then
            let parent := cork_path_dirname file1.path
            if parent.length = 0 then (0, w1)
            else
              match cork_file_mkdir_one fuel (cork_file_init parent) mode
                  (flags ||| CORK_FILE_PERMISSIVE) w1 with
              | (rc, _, w2) => (rc, w2)
          else (0, w1)
        match parentStep with
        | (rc, w2) =>
          if rc ≠ 0 then (-1, file1, w2)
          else
            match sys_mkdir file1.path mode w2 with
            | (mrc, w3) =>
              if mrc = -1 then (-1, file1, cork_system_error_set w3)
              else (0, file1, w3)

/-- `cork_file_mkdir` (files.c lines 447-451); the fuel bound
`path.length + 1` dominates the parent recursion depth, because each
parent path is strictly shorter than its child's. -/
def cork_file_mkdir (file : cork_file) (mode : Nat) (flags : Nat) (w : World) :
    Int × cork_file × World :=
  cork_file_mkdir_one (file.path.length + 1) file mode flags w

/-- `cork_file_remove` (files.c lines 461-488) with a fuel bound on the
recursion through the directory walker.  Missing targets are tolerated
only with PERMISSIVE (else an explicit ENOENT SystemError); directories
are first emptied via the walker when RECURSIVE (the visitor is
`cork_file_remove_iterator`, files.c lines 453-459, which recursively
removes each child with the same flags) and then removed by `rmdir`
(`rii_check_posix`: failure raises SystemError); anything else is removed
by `unlink` guarded by plain `rii_check`, which propagates -1 without
recording any error. -/
def cork_file_remove : Nat → cork_file → Nat → World → Int × cork_file × World
  | 0, file, _flags, w => (-1, file, w)
  | fuel + 1, file, flags, w =>
    match cork_file_stat file w with
    | (src, file1, w1) =>
      if src ≠ 0 then (-1, file1, w1)
      else if file1.type = CorkFileType.CORK_FILE_MISSING then
        if flags &&& CORK_FILE_PERMISSIVE ≠ 0 then (0, file1, w1)
        else (-1, file1, cork_system_error_set_explicit ENOENT w1)
      else if file1.type = CorkFileType.CORK_FILE_DIRECTORY then
        let contentsStep : Int × World :=
          if flags &&& CORK_FILE_RECURSIVE ≠ 0 then
            match cork_file_iterate_directory file1
                (fun child _name w' =>
                  match cork_file_remove fuel child flags w' with
                  | (rc, _, w'') => (rc, w'')) w1 with
            | (rc, _, w2, _) => (rc, w2)
          else (0, w1)
        match contentsStep with
        | (rc, w2) =>
          if rc ≠ 0 then (-1, file1, w2)
          else
            match sys_rmdir file1.path w2 with
            | (rrc, w3) =>
              if rrc = -1 then (-1, file1, cork_system_error_set w3)
              else (0, file1, w3)
      else
        match sys_unlink file1.path w1 with
        | (urc, w2) =>
          if urc ≠ 0 then (-1, file1, w2)
          else (0, file1, w2)

/-- `struct cork_ring_buffer` (ds/ring-buffer.h): a fixed array of slots,
its allocated size, the current element count, and the read/write indices. -/
structure cork_ring_buffer (β : Type) where
  elements : List β
  allocated_size : Nat
  size : Nat
  read_index : Nat
  write_index : Nat
deriving DecidableEq

/-- `cork_ring_buffer_init` (ring-buffer.c lines 17-30): `calloc` yields an
array of `n` zeroed slots (`zero` models the all-zero pointer value);
the counters start at 0. -/
def cork_ring_buffer_init (β : Type) (n : Nat) (zero : β) : cork_ring_buffer β :=
  { elements := List.replicate n zero, allocated_size := n, size := 0,
    read_index := 0, write_index := 0 }

/-- Modelled from the spec: `cork_ring_buffer_is_full`, declared in the
repository's ds/ring-buffer.h which is not under src/; the buffer is full
when the element count equals the allocated capacity. -/
def cork_ring_buffer_is_full (rb : cork_ring_buffer β) : Bool :=
  rb.size == rb.allocated_size

/-- Modelled from the spec: `cork_ring_buffer_is_empty`, declared in the
repository's ds/ring-buffer.h which is not under src/; the buffer is empty
when the element count is zero. -/
def cork_ring_buffer_is_empty (rb : cork_ring_buffer β) : Bool :=
  rb.size == 0

/-- `cork_ring_buffer_add` (ring-buffer.c lines 38-51): fail with -1 when
full; otherwise store at the write index, bump the index and the count,
and wrap the write index to 0 when it reaches the allocated size. -/
def cork_ring_buffer_add (rb : cork_ring_buffer β) (element : β) :
    Int × cork_ring_buffer β :=
  if cork_ring_buffer_is_full rb then (-1, rb)
  else
    let rb1 :=
      { rb with elements := (rb.elements.set rb.write_index element),
                write_index := rb.write_index + 1, size := rb.size + 1 }
    if rb1.write_index = rb1.allocated_size then (0, { rb1 with write_index := 0 })
    else (0, rb1)

/-- `cork_ring_buffer_pop` (ring-buffer.c lines 53-66): NULL when empty;
otherwise return the slot at the read index, bump the index, decrement the
count, and wrap the read index to 0 when it reaches the allocated size. -/
def cork_ring_buffer_pop (rb : cork_ring_buffer β) :
    Option β × cork_ring_buffer β :=
  if cork_ring_buffer_is_empty rb then (none, rb)
  else
    let result := rb.elements[rb.read_index]?
    let rb1 := { rb with read_index := rb.read_index + 1, size := rb.size - 1 }
    if rb1.read_index = rb1.allocated_size then (result, { rb1 with read_index := 0 })
    else (result, rb1)

/-- `cork_ring_buffer_peek` (ring-buffer.c lines 68-76): NULL when empty,
otherwise the slot at the read index, with no state change. -/
def cork_ring_buffer_peek (rb : cork_ring_buffer β) : Option β :=
  if cork_ring_buffer_is_empty rb then none
  else rb.elements[rb.read_index]?

/-- One client call against the ring buffer. -/
inductive RBOp (β : Type) where
  | add (x : β)
  | pop
deriving DecidableEq

/-- Run a sequence of calls against the ring buffer, collecting the value
returned by each pop. -/
def rb_run : List (RBOp β) → cork_ring_buffer β → cork_ring_buffer β × List (Option β)
  | [], rb => (rb, [])
  | RBOp.add x :: rest, rb => rb_run rest (cork_ring_buffer_add rb x).2
  | RBOp.pop :: rest, rb =>
    match cork_ring_buffer_pop rb with
    | (r, rb1) =>
      match rb_run rest rb1 with
      | (rb2, outs) => (rb2, r :: outs)

/-- Reference implementation: the same call sequence against a plain FIFO
list, popping from the front. -/
def queue_run : List (RBOp β) → List β → List β × List (Option β)
  | [], q => (q, [])
  | RBOp.add x :: rest, q => queue_run rest (q ++ [x])
  | RBOp.pop :: rest, q =>
    match q with
    | [] =>
      match queue_run rest [] with
      | (q2, outs) => (q2, none :: outs)
    | y :: ys =>
      match queue_run rest ys with
      | (q2, outs) => (q2, some y :: outs)

/-- Decides that no add in the call sequence ever hits a full buffer. -/
def rb_no_overflow : List (RBOp β) → cork_ring_buffer β → Bool
  | [], _ => true
  | RBOp.add x :: rest, rb =>
    !cork_ring_buffer_is_full rb && rb_no_overflow rest (cork_ring_buffer_add rb x).2
  | RBOp.pop :: rest, rb => rb_no_overflow rest (cork_ring_buffer_pop rb).2

/-- The abstract FIFO content of a ring buffer: `size` slots starting at
the read index, wrapping modulo the allocated size. -/
def rb_contents [Inhabited β] (rb : cork_ring_buffer β) : List β :=
  (List.range rb.size).map
    (fun i => rb.elements.getD ((rb.read_index + i) % rb.allocated_size) default)

/-- The representation invariant tying the indices and count together. -/
structure rb_valid (rb : cork_ring_buffer β) : Prop where
  len_eq : rb.elements.length = rb.allocated_size
  size_le : rb.size ≤ rb.allocated_size
  ri_ok : rb.read_index < rb.allocated_size ∨ rb.read_index = 0
  wi_eq : rb.write_index = (rb.read_index + rb.size) % rb.allocated_size

/-- A concrete full one-slot ring buffer, used by the C8 witness. -/
def rb_full_example : cork_ring_buffer Nat :=
  { elements := [7], allocated_size := 1, size := 1, read_index := 0, write_index := 0 }

/-- A concrete world for witnesses: every stat answers ENOENT, no injected
syscall failures, an empty listing, errno 0 and no recorded error. -/
def w_enoent : World :=
  { fs := fun _ => StatAns.failed ENOENT,
    opendirFail := fun _ => none,
    closedirFail := fun _ => none,
    listing := fun _ => ([], ListTerm.eof),
    mkdirFail := fun _ => none,
    rmdirFail := fun _ => none,
    unlinkFail := fun _ => none,
    errno := 0,
    corkErr := none,
    mkdirLog := [] }

/-- The regular file whose unlink is made to fail, for the C2 evaluation. -/
def file_c2 : cork_file := cork_file_init ['f']

/-- A world where the path stats as a regular file and `unlink` fails with
EACCES; no error has been recorded yet. -/
def w_c2 : World :=
  { fs := fun _ => StatAns.found S_IFREG,
    opendirFail := fun _ => none,
    closedirFail := fun _ => none,
    listing := fun _ => ([], ListTerm.eof),
    mkdirFail := fun _ => none,
    rmdirFail := fun _ => none,
    unlinkFail := fun _ => some EACCES,
    errno := 0,
    corkErr := none,
    mkdirLog := [] }

/-- The missing directory path created in the C3 counterexample. -/
def file_c3 : cork_file := cork_file_init ['d']

/-- A world where every path stats as a regular file, with no injected
syscall failures. -/
def w_reg : World :=
  { fs := fun _ => StatAns.found S_IFREG,
    opendirFail := fun _ => none,
    closedirFail := fun _ => none,
    listing := fun _ => ([], ListTerm.eof),
    mkdirFail := fun _ => none,
    rmdirFail := fun _ => none,
    unlinkFail := fun _ => none,
    errno := 0,
    corkErr := none,
    mkdirLog := [] }

/-- The cached-Missing file "a/b" used by the C5 witness. -/
def file_c5 : cork_file :=
  { path := ['a', '/', 'b'], type := CorkFileType.CORK_FILE_MISSING, has_stat := true }

/-- Whether a stat answer is one the walker's loop survives: a success, or
a not-found errno that `cork_file_stat` memoizes as Missing. -/
def statGood : StatAns → Bool
  | StatAns.found _ => true
  | StatAns.failed e => e == ENOENT || e == ENOTDIR

/-- The directory file "d" whose listing is walked in the C1 witness. -/
def file_c1 : cork_file := cork_file_init ['d']

/-- A world whose directory listing for "d" yields entries ".", "a" and
then a readdir failure with errno 5 (EIO); every stat answers ENOENT. -/
def w_c1 : World :=
  { fs := fun _ => StatAns.failed ENOENT,
    opendirFail := fun _ => none,
    closedirFail := fun _ => none,
    listing := fun _ => ([['.'], ['a']], ListTerm.fail 5),
    mkdirFail := fun _ => none,
    rmdirFail := fun _ => none,
    unlinkFail := fun _ => none,
    errno := 0,
    corkErr := none,
    mkdirLog := [] }

theorem strrchr_some_get {p : CPath} {c : Char} {i : Nat}
    (h : strrchr p c = some i) : ∃ hlt : i < p.length, p.get ⟨i, hlt⟩ = c := by
  induction p generalizing i with
  | nil => simp [strrchr] at h
  | cons x rest ih =>
    simp only [strrchr] at h
    cases hs : strrchr rest c with
    | some j =>
      rw [hs] at h
      injection h with h
      subst h
      obtain ⟨hlt, hget⟩ := ih hs
      exact ⟨by simpa using Nat.succ_lt_succ hlt, by simpa using hget⟩
    | none =>
      rw [hs] at h
      by_cases hx : x = c
      · simp [hx] at h
        subst h
        exact ⟨by simp, by simpa using hx⟩
      · simp [hx] at h

theorem strrchr_isSome_of_mem {p : CPath} {c : Char} (h : c ∈ p) :
    (strrchr p c).isSome := by
  induction p with
  | nil => simp at h
  | cons x rest ih =>
    simp only [strrchr]
    cases hs : strrchr rest c with
    | some j => simp
    | none =>
      rcases List.mem_cons.mp h with hx | hm
      · simp [hx.symm]
      · have := ih hm
        rw [hs] at this
        simp at this

/-- C6: for every path `p` and every `more` that begins with a separator,
`cork_path_append` fully replaces `p`'s contents with `more`, and
`cork_path_join` (which operates on a clone of its source, leaving the
source value untouched) therefore yields exactly `more` regardless of the
source path's contents. -/
theorem append_absolute_replaces (p more : CPath) (h : more.head? = some '/') :
    cork_path_append p more = more ∧ ∀ q : CPath, cork_path_join q more = more := by
  have hne : more ≠ [] := by
    intro hnil
    rw [hnil] at h
    simp at h
  constructor
  · simp [cork_path_append, hne, h]
  · intro q
    simp [cork_path_join, cork_path_clone, cork_path_append, hne, h]

/-- Witness for C6: joining `"/abs"` onto `"some/dir"` yields exactly `"/abs"`. -/
theorem append_absolute_replaces_witness :
    (['s','o','m','e','/','d','i','r'] : CPath) ≠ [] ∧
      cork_path_join ['s','o','m','e','/','d','i','r'] ['/','a','b','s'] = ['/','a','b','s'] :=
  ⟨by decide, (append_absolute_replaces ['s','o','m','e','/','d','i','r'] ['/','a','b','s'] rfl).2
      ['s','o','m','e','/','d','i','r']⟩

/-- C7: for every path containing at least one separator, the dirname of
one clone and the basename of another clone concatenate, with exactly one
'/' inserted between them, back to the original path. -/
theorem dirname_basename_recover (p : CPath) (h : '/' ∈ p) :
    cork_path_set_dirname (cork_path_clone p) ++ '/' ::
      cork_path_set_basename (cork_path_clone p) = p := by
  have hsome := strrchr_isSome_of_mem h
  cases hs : strrchr p '/' with
  | none => rw [hs] at hsome; simp at hsome
  | some i =>
    obtain ⟨hlt, hget⟩ := strrchr_some_get hs
    simp only [cork_path_set_dirname, cork_path_set_basename, cork_path_clone, hs]
    have hdrop : p.drop i = '/' :: p.drop (i + 1) := by
      rw [List.drop_eq_get_cons hlt, hget]
    calc p.take i ++ '/' :: p.drop (i + 1)
        = p.take i ++ p.drop i := by rw [hdrop]
      _ = p := List.take_append_drop i p

/-- Witness for C7: `"a/b/c"` splits into dirname `"a/b"` and basename `"c"`
which recombine to the original. -/
theorem dirname_basename_recover_witness :
    '/' ∈ (['a','/','b','/','c'] : CPath) ∧
      cork_path_set_dirname (cork_path_clone ['a','/','b','/','c']) ++ '/' ::
        cork_path_set_basename (cork_path_clone ['a','/','b','/','c']) = ['a','/','b','/','c'] :=
  ⟨by decide, dirname_basename_recover ['a','/','b','/','c'] (by decide)⟩

theorem mod_shift_ne {n ri i s : Nat} (hi : i < s) (hs : s < n) :
    (ri + i) % n ≠ (ri + s) % n := by
  intro h
  have hle : ri + i ≤ ri + s := Nat.add_le_add_left (Nat.le_of_lt hi) ri
  have hdvd : n ∣ (ri + s) - (ri + i) := (Nat.modEq_iff_dvd' hle).mp h
  have hsub : (ri + s) - (ri + i) = s - i := by omega
  rw [hsub] at hdvd
  have hpos : 0 < s - i := by omega
  have := Nat.le_of_dvd hpos hdvd
  omega

theorem rb_add_ok [Inhabited β] (rb : cork_ring_buffer β) (x : β)
    (hv : rb_valid rb) (hlt : rb.size < rb.allocated_size) :
    (cork_ring_buffer_add rb x).1 = 0 ∧
      rb_valid (cork_ring_buffer_add rb x).2 ∧
      rb_contents (cork_ring_buffer_add rb x).2 = rb_contents rb ++ [x] := by
  obtain ⟨hlen, hsz, hri, hwi⟩ := hv
  have hn : 0 < rb.allocated_size := Nat.lt_of_le_of_lt (Nat.zero_le _) hlt
  have hfull : cork_ring_buffer_is_full rb = false := by
    simp [cork_ring_buffer_is_full]
    omega
  have hwi_lt : rb.write_index < rb.allocated_size := by
    rw [hwi]; exact Nat.mod_lt _ hn
  have hcontents : ∀ (rbnew : cork_ring_buffer β),
      rbnew.elements = rb.elements.set rb.write_index x →
      rbnew.allocated_size = rb.allocated_size →
      rbnew.size = rb.size + 1 →
      rbnew.read_index = rb.read_index →
      rb_contents rbnew = rb_contents rb ++ [x] := by
    intro rbnew he ha hsn hrn
    unfold rb_contents
    rw [he, ha, hsn, hrn, List.range_succ, List.map_append, List.map_singleton]
    congr 1
    · apply List.map_congr_left
      intro i hi
      have hi' : i < rb.size := List.mem_range.mp hi
      have hne : (rb.read_index + i) % rb.allocated_size ≠ rb.write_index := by
        rw [hwi]
        exact mod_shift_ne hi' hlt
      rw [List.getD_eq_getElem?_getD, List.getD_eq_getElem?_getD,
        List.getElem?_set_ne (Ne.symm hne)]
    · have heq : (rb.read_index + rb.size) % rb.allocated_size = rb.write_index :=
        hwi.symm
      rw [List.getD_eq_getElem?_getD, heq,
        List.getElem?_set_self (by rw [hlen]; exact hwi_lt)]
      simp
  have hvalid : ∀ (rbnew : cork_ring_buffer β),
      rbnew.elements = rb.elements.set rb.write_index x →
      rbnew.allocated_size = rb.allocated_size →
      rbnew.size = rb.size + 1 →
      rbnew.read_index = rb.read_index →
      rbnew.write_index = (rb.write_index + 1) % rb.allocated_size →
      rb_valid rbnew := by
    intro rbnew he ha hsn hrn hwn
    refine ⟨?_, ?_, ?_, ?_⟩
    · rw [he, ha, List.length_set, hlen]
    · omega
    · rw [hrn, ha]; exact hri
    · rw [hwn, hrn, hsn, ha, hwi, Nat.mod_add_mod]
      congr 1 <;> omega
  unfold cork_ring_buffer_add
  rw [hfull]
  simp only [Bool.false_eq_true, if_false]
  by_cases hwrap : rb.write_index + 1 = rb.allocated_size
  · rw [if_pos (by simpa using hwrap)]
    refine ⟨rfl, ?_, ?_⟩
    · apply hvalid <;> simp [hwrap, Nat.mod_self]
    · apply hcontents <;> simp
  · rw [if_neg (by simpa using hwrap)]
    refine ⟨rfl, ?_, ?_⟩
    · apply hvalid <;> simp [Nat.mod_eq_of_lt (by omega : rb.write_index + 1 < rb.allocated_size)]
    · apply hcontents <;> simp

theorem rb_pop_empty (rb : cork_ring_buffer β) (h : rb.size = 0) :
    cork_ring_buffer_pop rb = (none, rb) := by
  unfold cork_ring_buffer_pop
  have : cork_ring_buffer_is_empty rb = true := by
    simp [cork_ring_buffer_is_empty, h]
  rw [this]
  simp

theorem rb_pop_ok [Inhabited β] (rb : cork_ring_buffer β)
    (hv : rb_valid rb) (hpos : 0 < rb.size) :
    ∃ y ys, rb_contents rb = y :: ys ∧
      (cork_ring_buffer_pop rb).1 = some y ∧
      rb_contents (cork_ring_buffer_pop rb).2 = ys ∧
      rb_valid (cork_ring_buffer_pop rb).2 := by
  obtain ⟨hlen, hsz, hri, hwi⟩ := hv
  have hn : 0 < rb.allocated_size := Nat.lt_of_lt_of_le hpos hsz
  have hri_lt : rb.read_index < rb.allocated_size := by
    rcases hri with h | h
    · exact h
    · omega
  have hempty : cork_ring_buffer_is_empty rb = false := by
    simp [cork_ring_buffer_is_empty]
    omega
  have hget : rb.elements[rb.read_index]? =
      some (rb.elements.getD rb.read_index default) := by
    rw [List.getD_eq_getElem?_getD]
    cases hq : rb.elements[rb.read_index]? with
    | none =>
      have : rb.read_index < rb.elements.length := by omega
      rw [List.getElem?_eq_getElem this] at hq
      cases hq
    | some v => simp
  refine ⟨rb.elements.getD rb.read_index default,
    (List.range (rb.size - 1)).map
      (fun i => rb.elements.getD
        ((rb.read_index + 1 + i) % rb.allocated_size) default), ?_, ?_, ?_, ?_⟩
  · unfold rb_contents
    have hs : rb.size = (rb.size - 1) + 1 := by omega
    rw [hs, List.range_succ_eq_map, List.map_cons, List.map_map]
    congr 1
    · rw [Nat.add_zero, Nat.mod_eq_of_lt hri_lt]
    · apply List.map_congr_left
      intro i _
      simp only [Function.comp]
      congr 2
      omega
  · unfold cork_ring_buffer_pop
    rw [hempty]
    simp only [Bool.false_eq_true, if_false, hget]
    by_cases hwrap : rb.read_index + 1 = rb.allocated_size <;> simp [hwrap]
  · have hresult : (cork_ring_buffer_pop rb).2 =
        { rb with read_index := ((rb.read_index + 1) % rb.allocated_size), size := rb.size - 1 } := by
      unfold cork_ring_buffer_pop
      rw [hempty]
      simp only [Bool.false_eq_true, if_false]
      by_cases hwrap : rb.read_index + 1 = rb.allocated_size
      · simp [hwrap, Nat.mod_self]
      · simp [hwrap, Nat.mod_eq_of_lt (show rb.read_index + 1 < rb.allocated_size by omega)]
    rw [hresult]
    unfold rb_contents
    apply List.map_congr_left
    intro i _
    congr 1
    show ((rb.read_index + 1) % rb.allocated_size + i) % rb.allocated_size
        = (rb.read_index + 1 + i) % rb.allocated_size
    rw [Nat.mod_add_mod]
  · have hresult : (cork_ring_buffer_pop rb).2 =
        { rb with read_index := ((rb.read_index + 1) % rb.allocated_size), size := rb.size - 1 } := by
      unfold cork_ring_buffer_pop
      rw [hempty]
      simp only [Bool.false_eq_true, if_false]
      by_cases hwrap : rb.read_index + 1 = rb.allocated_size
      · simp [hwrap, Nat.mod_self]
      · simp [hwrap, Nat.mod_eq_of_lt (show rb.read_index + 1 < rb.allocated_size by omega)]
    rw [hresult]
    refine ⟨hlen, (show rb.size - 1 ≤ rb.allocated_size by omega), Or.inl (Nat.mod_lt _ hn), ?_⟩
    show rb.write_index
        = ((rb.read_index + 1) % rb.allocated_size + (rb.size - 1)) % rb.allocated_size
    rw [Nat.mod_add_mod, hwi]
    congr 1
    omega

theorem rb_init_valid (β : Type) (n : Nat) (z : β) :
    rb_valid (cork_ring_buffer_init β n z) := by
  refine ⟨?_, ?_, Or.inr rfl, ?_⟩
  · simp [cork_ring_buffer_init]
  · simp [cork_ring_buffer_init]
  · simp [cork_ring_buffer_init]

theorem rb_run_queue [Inhabited β] (ops : List (RBOp β)) :
    ∀ rb : cork_ring_buffer β, rb_valid rb → rb_no_overflow ops rb = true →
      (rb_run ops rb).2 = (queue_run ops (rb_contents rb)).2 := by
  induction ops with
  | nil => intro rb _ _; rfl
  | cons op rest ih =>
    intro rb hv hno
    cases op with
    | add x =>
      simp only [rb_no_overflow, Bool.and_eq_true, Bool.not_eq_true'] at hno
      obtain ⟨hnf, hno1⟩ := hno
      have hlt : rb.size < rb.allocated_size := by
        have := hv.size_le
        simp [cork_ring_buffer_is_full] at hnf
        omega
      obtain ⟨_, hv1, hc1⟩ := rb_add_ok rb x hv hlt
      simp only [rb_run, queue_run]
      rw [← hc1]
      exact ih _ hv1 hno1
    | pop =>
      simp only [rb_no_overflow] at hno
      by_cases hz : rb.size = 0
      · have hp := rb_pop_empty rb hz
        have hc : rb_contents rb = [] := by
          unfold rb_contents
          rw [hz]
          rfl
        rw [hp] at hno
        rcases hrun : rb_run rest rb with ⟨rb2, outs⟩
        rcases hq : queue_run rest ([] : List β) with ⟨q2, qouts⟩
        have hout := ih rb hv hno
        rw [hc, hrun, hq] at hout
        simp only [rb_run, queue_run, hc, hp, hrun, hq]
        simpa using hout
      · obtain ⟨y, ys, hcy, hr1, hc2, hv2⟩ := rb_pop_ok rb hv (Nat.pos_of_ne_zero hz)
        rcases hp : cork_ring_buffer_pop rb with ⟨r, rb1⟩
        rw [hp] at hr1 hc2 hv2 hno
        simp only at hr1 hc2 hv2
        rcases hrun : rb_run rest rb1 with ⟨rb2, outs⟩
        rcases hq : queue_run rest ys with ⟨q2, qouts⟩
        have hout := ih rb1 hv2 hno
        rw [hc2, hrun, hq] at hout
        simp only [rb_run, queue_run, hcy, hp, hrun, hq, hr1]
        simpa using hout

/-- C8: for every ring buffer whose element count equals its allocated
capacity, `cork_ring_buffer_add` returns -1 and leaves the whole state
(elements, size, read index, write index) unchanged. -/
theorem ring_buffer_add_full (β : Type) (rb : cork_ring_buffer β) (x : β)
    (h : rb.size = rb.allocated_size) :
    cork_ring_buffer_add rb x = (-1, rb) := by
  unfold cork_ring_buffer_add
  have hfull : cork_ring_buffer_is_full rb = true := by
    simp [cork_ring_buffer_is_full, h]
  rw [hfull]
  simp

/-- Witness for C8: adding to a full one-slot buffer fails with -1 and
changes nothing. -/
theorem ring_buffer_add_full_witness :
    rb_full_example.size = rb_full_example.allocated_size ∧
      cork_ring_buffer_add rb_full_example 9 = (-1, rb_full_example) :=
  ⟨rfl, ring_buffer_add_full Nat rb_full_example 9 rfl⟩

/-- C9: for every sequence of add/pop calls starting from a fresh buffer in
which no add hits a full buffer, the values returned by the pops are
exactly those of a plain FIFO queue (each successful pop yields the oldest
element not yet popped), and a pop on an empty buffer returns NULL and
leaves the buffer unchanged. -/
theorem ring_buffer_fifo (β : Type) [Inhabited β] (ops : List (RBOp β)) (n : Nat) (z : β)
    (hno : rb_no_overflow ops (cork_ring_buffer_init β n z) = true) :
    (rb_run ops (cork_ring_buffer_init β n z)).2 = (queue_run ops ([] : List β)).2 ∧
      ∀ rb : cork_ring_buffer β, rb.size = 0 → cork_ring_buffer_pop rb = (none, rb) := by
  constructor
  · have h := rb_run_queue ops (cork_ring_buffer_init β n z) (rb_init_valid β n z) hno
    rwa [show rb_contents (cork_ring_buffer_init β n z) = [] from rfl] at h
  · exact fun rb h => rb_pop_empty rb h

/-- Witness for C9: a wrapping interleaving on a capacity-2 buffer follows
the FIFO reference exactly. -/
theorem ring_buffer_fifo_witness :
    rb_no_overflow
        [RBOp.add 10, RBOp.add 20, RBOp.pop, RBOp.add 30, RBOp.pop, RBOp.pop, RBOp.pop]
        (cork_ring_buffer_init Nat 2 0) = true ∧
      (rb_run [RBOp.add 10, RBOp.add 20, RBOp.pop, RBOp.add 30, RBOp.pop, RBOp.pop, RBOp.pop]
          (cork_ring_buffer_init Nat 2 0)).2 =
        (queue_run
          [RBOp.add 10, RBOp.add 20, RBOp.pop, RBOp.add 30, RBOp.pop, RBOp.pop, RBOp.pop]
          ([] : List Nat)).2 :=
  ⟨by decide,
    (ring_buffer_fifo Nat
      [RBOp.add 10, RBOp.add 20, RBOp.pop, RBOp.add 30, RBOp.pop, RBOp.pop, RBOp.pop]
      2 0 (by decide)).1⟩

theorem stat_cached (file : cork_file) (w : World) (hs : file.has_stat = true) :
    cork_file_stat file w = (0, file, w) := by
  unfold cork_file_stat
  rw [hs]
  simp

theorem stat_missing (file : cork_file) (w : World) (e : Nat)
    (hns : file.has_stat = false) (hfs : w.fs file.path = StatAns.failed e)
    (he : e = ENOENT ∨ e = ENOTDIR) :
    cork_file_stat file w =
      (0, { file with type := CorkFileType.CORK_FILE_MISSING, has_stat := true },
        { w with errno := e }) := by
  unfold cork_file_stat
  simp only [hns, Bool.false_eq_true, if_false, hfs]
  rw [if_pos he]

theorem stat_error (file : cork_file) (w : World) (e : Nat)
    (hns : file.has_stat = false) (hfs : w.fs file.path = StatAns.failed e)
    (he : ¬(e = ENOENT ∨ e = ENOTDIR)) :
    cork_file_stat file w =
      (-1, file, cork_system_error_set { w with errno := e }) := by
  unfold cork_file_stat
  simp only [hns, Bool.false_eq_true, if_false, hfs]
  rw [if_neg he]

theorem stat_found (file : cork_file) (w : World) (m : Nat)
    (hns : file.has_stat = false) (hfs : w.fs file.path = StatAns.found m) :
    cork_file_stat file w =
      (0, { file with
              type :=
                (if m &&& S_IFMT = S_IFREG then CorkFileType.CORK_FILE_REGULAR
                 else if m &&& S_IFMT = S_IFDIR then CorkFileType.CORK_FILE_DIRECTORY
                 else if m &&& S_IFMT = S_IFLNK then CorkFileType.CORK_FILE_SYMLINK
                 else CorkFileType.CORK_FILE_UNKNOWN),
              has_stat := true },
        w) := by
  unfold cork_file_stat
  simp only [hns, Bool.false_eq_true, if_false, hfs]

theorem cork_file_stat_zero_has_stat (file : cork_file) (w : World)
    (h : (cork_file_stat file w).1 = 0) :
    (cork_file_stat file w).2.1.has_stat = true := by
  cases hs : file.has_stat with
  | true => rw [stat_cached file w hs]; exact hs
  | false =>
    cases hfs : w.fs file.path with
    | failed e =>
      by_cases he : e = ENOENT ∨ e = ENOTDIR
      · rw [stat_missing file w e hs hfs he]
      · rw [stat_error file w e hs hfs he] at h
        simp at h
    | found m => rw [stat_found file w m hs hfs]

/-- C4: classifying a file with no valid cache: a stat failure with
ENOENT/ENOTDIR (entry or ancestor missing) yields Missing, memoized, and
the call succeeds; any other stat failure returns -1 with a SystemError
wrapping that errno and the cache left invalid; a stat success memoizes
the tag derived from the `st_mode` type bits (Regular/Directory/Symlink,
anything else Unknown). -/
theorem file_stat_classification (file : cork_file) (w : World)
    (hns : file.has_stat = false) :
    (∀ e, w.fs file.path = StatAns.failed e → (e = ENOENT ∨ e = ENOTDIR) →
      cork_file_stat file w =
        (0, { file with type := CorkFileType.CORK_FILE_MISSING, has_stat := true },
          { w with errno := e })) ∧
    (∀ e, w.fs file.path = StatAns.failed e → ¬(e = ENOENT ∨ e = ENOTDIR) →
      (cork_file_stat file w).1 = -1 ∧
        (cork_file_stat file w).2.1.has_stat = false ∧
        (cork_file_stat file w).2.2.corkErr = some e) ∧
    (∀ m, w.fs file.path = StatAns.found m →
      (cork_file_stat file w).1 = 0 ∧
        (cork_file_stat file w).2.1.has_stat = true ∧
        (m &&& S_IFMT = S_IFREG →
          (cork_file_stat file w).2.1.type = CorkFileType.CORK_FILE_REGULAR) ∧
        (m &&& S_IFMT = S_IFDIR →
          (cork_file_stat file w).2.1.type = CorkFileType.CORK_FILE_DIRECTORY) ∧
        (m &&& S_IFMT = S_IFLNK →
          (cork_file_stat file w).2.1.type = CorkFileType.CORK_FILE_SYMLINK) ∧
        (m &&& S_IFMT ≠ S_IFREG → m &&& S_IFMT ≠ S_IFDIR → m &&& S_IFMT ≠ S_IFLNK →
          (cork_file_stat file w).2.1.type = CorkFileType.CORK_FILE_UNKNOWN)) := by
  refine ⟨?_, ?_, ?_⟩
  · intro e hfs he
    exact stat_missing file w e hns hfs he
  · intro e hfs he
    rw [stat_error file w e hns hfs he]
    exact ⟨rfl, hns, rfl⟩
  · intro m hfs
    rw [stat_found file w m hns hfs]
    refine ⟨rfl, rfl, ?_, ?_, ?_, ?_⟩
    · intro h
      show (if m &&& S_IFMT = S_IFREG then CorkFileType.CORK_FILE_REGULAR
        else if m &&& S_IFMT = S_IFDIR then CorkFileType.CORK_FILE_DIRECTORY
        else if m &&& S_IFMT = S_IFLNK then CorkFileType.CORK_FILE_SYMLINK
        else CorkFileType.CORK_FILE_UNKNOWN) = CorkFileType.CORK_FILE_REGULAR
      rw [if_pos h]
    · intro h
      have h1 : ¬ m &&& S_IFMT = S_IFREG := by rw [h]; decide
      show (if m &&& S_IFMT = S_IFREG then CorkFileType.CORK_FILE_REGULAR
        else if m &&& S_IFMT = S_IFDIR then CorkFileType.CORK_FILE_DIRECTORY
        else if m &&& S_IFMT = S_IFLNK then CorkFileType.CORK_FILE_SYMLINK
        else CorkFileType.CORK_FILE_UNKNOWN) = CorkFileType.CORK_FILE_DIRECTORY
      rw [if_neg h1, if_pos h]
    · intro h
      have h1 : ¬ m &&& S_IFMT = S_IFREG := by rw [h]; decide
      have h2 : ¬ m &&& S_IFMT = S_IFDIR := by rw [h]; decide
      show (if m &&& S_IFMT = S_IFREG then CorkFileType.CORK_FILE_REGULAR
        else if m &&& S_IFMT = S_IFDIR then CorkFileType.CORK_FILE_DIRECTORY
        else if m &&& S_IFMT = S_IFLNK then CorkFileType.CORK_FILE_SYMLINK
        else CorkFileType.CORK_FILE_UNKNOWN) = CorkFileType.CORK_FILE_SYMLINK
      rw [if_neg h1, if_neg h2, if_pos h]
    · intro h1 h2 h3
      show (if m &&& S_IFMT = S_IFREG then CorkFileType.CORK_FILE_REGULAR
        else if m &&& S_IFMT = S_IFDIR then CorkFileType.CORK_FILE_DIRECTORY
        else if m &&& S_IFMT = S_IFLNK then CorkFileType.CORK_FILE_SYMLINK
        else CorkFileType.CORK_FILE_UNKNOWN) = CorkFileType.CORK_FILE_UNKNOWN
      rw [if_neg h1, if_neg h2, if_neg h3]

/-- Witness for C4: a fresh file on a path whose stat fails with ENOENT is
classified Missing, memoized, successfully. -/
theorem file_stat_classification_witness :
    (cork_file_init ['a']).has_stat = false ∧
      cork_file_stat (cork_file_init ['a']) w_enoent =
        (0, { cork_file_init ['a'] with type := CorkFileType.CORK_FILE_MISSING, has_stat := true },
          { w_enoent with errno := ENOENT }) :=
  ⟨rfl, (file_stat_classification (cork_file_init ['a']) w_enoent rfl).1 ENOENT rfl (Or.inl rfl)⟩

/-- C2: evaluation at the failing input.  Removing a Regular file whose
`unlink` syscall fails with EACCES returns -1 (the failure is propagated)
but records NO SystemError: `rii_check(unlink(...))` (files.c line 485)
does not wrap the OS failure code, unlike the `rii_check_posix` guard used
for every other syscall in the file, so the libcork error slot stays empty
even though errno holds EACCES. -/
theorem remove_unlink_error_not_wrapped :
    (cork_file_remove 1 file_c2 0 w_c2).1 = -1 ∧
      (cork_file_remove 1 file_c2 0 w_c2).2.2.corkErr = none ∧
      (cork_file_remove 1 file_c2 0 w_c2).2.2.errno = EACCES :=
  ⟨rfl, rfl, rfl⟩

/-- C3 counterexample: `cork_file_mkdir` on a missing path succeeds in
creating the directory, yet afterwards the file's validity flag is still
set and the cached tag is the stale pre-operation Missing — the claim
that the validity flag is cleared after the mutating operation is false. -/
theorem mkdir_leaves_stale_cache :
    (cork_file_mkdir file_c3 493 0 w_enoent).1 = 0 ∧
      (cork_file_mkdir file_c3 493 0 w_enoent).2.1.has_stat = true ∧
      (cork_file_mkdir file_c3 493 0 w_enoent).2.1.type = CorkFileType.CORK_FILE_MISSING :=
  ⟨rfl, rfl, rfl⟩

theorem mkdir_one_missing_leaf (fuel mode flags : Nat) (file f1 : cork_file)
    (w w1 : World)
    (hstat : cork_file_stat file w = (0, f1, w1))
    (hmiss : f1.type = CorkFileType.CORK_FILE_MISSING)
    (hnorec : flags &&& CORK_FILE_RECURSIVE = 0)
    (hmk : w1.mkdirFail f1.path = none) :
    cork_file_mkdir_one (fuel + 1) file mode flags w =
      (0, f1,
        { w1 with fs := fun q => if q = f1.path then StatAns.found S_IFDIR else w1.fs q,
                  mkdirLog := w1.mkdirLog ++ [(f1.path, mode)] }) := by
  simp only [cork_file_mkdir_one, hstat]
  rw [hmiss]
  simp [sys_mkdir, hnorec, hmk]

theorem remove_unlink_leaf (fuel flags : Nat) (file2 f2 : cork_file) (w2 w3 : World)
    (hstat : cork_file_stat file2 w2 = (0, f2, w3))
    (hm : f2.type ≠ CorkFileType.CORK_FILE_MISSING)
    (hd : f2.type ≠ CorkFileType.CORK_FILE_DIRECTORY)
    (hul : w3.unlinkFail f2.path = none) :
    cork_file_remove (fuel + 1) file2 flags w2 =
      (0, f2,
        { w3 with fs := fun q => if q = f2.path then StatAns.failed ENOENT else w3.fs q }) := by
  simp only [cork_file_remove, hstat]
  simp [sys_unlink, hm, hd, hul]

/-- C3 amended: after `cork_file_mkdir` successfully creates a missing
directory, and after `cork_file_remove` successfully unlinks an existing
non-directory entry, the File's validity flag is NOT cleared: it remains
set and the stale pre-operation tag is retained (Missing after the create,
the old type after the remove), so a subsequent classification returns the
stale cached tag without re-querying the filesystem; the flag is cleared
only by `cork_file_reset` during directory-traversal reuse. -/
theorem mutation_keeps_stale_cache
    (fuel mode flags : Nat) (file f1 : cork_file) (w w1 : World)
    (hstat : cork_file_stat file w = (0, f1, w1))
    (hmiss : f1.type = CorkFileType.CORK_FILE_MISSING)
    (hnorec : flags &&& CORK_FILE_RECURSIVE = 0)
    (hmk : w1.mkdirFail f1.path = none) :
    ((cork_file_mkdir_one (fuel + 1) file mode flags w).1 = 0 ∧
      (cork_file_mkdir_one (fuel + 1) file mode flags w).2.1.has_stat = true ∧
      (cork_file_mkdir_one (fuel + 1) file mode flags w).2.1.type =
        CorkFileType.CORK_FILE_MISSING ∧
      cork_file_stat (cork_file_mkdir_one (fuel + 1) file mode flags w).2.1
          (cork_file_mkdir_one (fuel + 1) file mode flags w).2.2 =
        (0, (cork_file_mkdir_one (fuel + 1) file mode flags w).2.1,
          (cork_file_mkdir_one (fuel + 1) file mode flags w).2.2)) ∧
    ∀ (flags2 : Nat) (file2 f2 : cork_file) (w2 w3 : World),
      cork_file_stat file2 w2 = (0, f2, w3) →
      f2.type ≠ CorkFileType.CORK_FILE_MISSING →
      f2.type ≠ CorkFileType.CORK_FILE_DIRECTORY →
      w3.unlinkFail f2.path = none →
      (cork_file_remove (fuel + 1) file2 flags2 w2).1 = 0 ∧
        (cork_file_remove (fuel + 1) file2 flags2 w2).2.1.has_stat = true ∧
        (cork_file_remove (fuel + 1) file2 flags2 w2).2.1.type = f2.type := by
  have hf1 : f1.has_stat = true := by
    have h0 : (cork_file_stat file w).1 = 0 := by rw [hstat]
    have hh := cork_file_stat_zero_has_stat file w h0
    rw [hstat] at hh
    exact hh
  constructor
  · rw [mkdir_one_missing_leaf fuel mode flags file f1 w w1 hstat hmiss hnorec hmk]
    exact ⟨rfl, hf1, hmiss, stat_cached f1 _ hf1⟩
  · intro flags2 file2 f2 w2 w3 hstat2 hm hd hul
    have hf2 : f2.has_stat = true := by
      have h0 : (cork_file_stat file2 w2).1 = 0 := by rw [hstat2]
      have hh := cork_file_stat_zero_has_stat file2 w2 h0
      rw [hstat2] at hh
      exact hh
    rw [remove_unlink_leaf fuel flags2 file2 f2 w2 w3 hstat2 hm hd hul]
    exact ⟨rfl, hf2, rfl⟩

/-- Witness for the amended C3: a successful mkdir of "d" keeps the stale
Missing tag with the flag set, and a successful unlink of regular "f"
keeps the stale Regular tag with the flag set. -/
theorem mutation_keeps_stale_cache_witness :
    (cork_file_mkdir_one 1 (cork_file_init ['d']) 493 0 w_enoent).1 = 0 ∧
      (cork_file_mkdir_one 1 (cork_file_init ['d']) 493 0 w_enoent).2.1.has_stat = true ∧
      (cork_file_mkdir_one 1 (cork_file_init ['d']) 493 0 w_enoent).2.1.type =
        CorkFileType.CORK_FILE_MISSING ∧
      (cork_file_remove 1 (cork_file_init ['f']) 0 w_reg).1 = 0 ∧
      (cork_file_remove 1 (cork_file_init ['f']) 0 w_reg).2.1.has_stat = true ∧
      (cork_file_remove 1 (cork_file_init ['f']) 0 w_reg).2.1.type =
        CorkFileType.CORK_FILE_REGULAR := by
  have h := mutation_keeps_stale_cache 0 493 0 (cork_file_init ['d'])
    { path := ['d'], type := CorkFileType.CORK_FILE_MISSING, has_stat := true }
    w_enoent { w_enoent with errno := ENOENT } rfl rfl rfl rfl
  have hb := h.2 0 (cork_file_init ['f'])
    { path := ['f'], type := CorkFileType.CORK_FILE_REGULAR, has_stat := true }
    w_reg w_reg rfl (by decide) (by decide) rfl
  exact ⟨h.1.1, h.1.2.1, h.1.2.2.1, hb.1, hb.2.1, hb.2.2⟩

/-- C5: for a File whose classification comes out Missing, with the
Recursive flag set, `cork_file_mkdir_one` computes the parent path by
SetDirname on a clone of the file's path; an empty parent is skipped
(assumed to already exist); otherwise the parent is created recursively
with PERMISSIVE forced on regardless of the caller's own flags (only the
leaf's tolerance is caller-controlled); afterwards the leaf directory is
created by the `mkdir` syscall with the given mode, and a creation failure
is wrapped as a SystemError and propagated. -/
theorem mkdir_missing_recursive
    (fuel mode flags : Nat) (file f1 : cork_file) (w w1 : World)
    (hstat : cork_file_stat file w = (0, f1, w1))
    (hmiss : f1.type = CorkFileType.CORK_FILE_MISSING)
    (hrec : flags &&& CORK_FILE_RECURSIVE ≠ 0) :
    cork_file_mkdir_one (fuel + 1) file mode flags w =
      (let parent := cork_path_set_dirname (cork_path_clone f1.path)
       let parentStep : Int × World :=
         if parent.length = 0 then (0, w1)
         else
           match cork_file_mkdir_one fuel (cork_file_init parent) mode
               (flags ||| CORK_FILE_PERMISSIVE) w1 with
           | (rc, _, w2) => (rc, w2)
       match parentStep with
       | (rc, w2) =>
         if rc ≠ 0 then (-1, f1, w2)
         else
           match sys_mkdir f1.path mode w2 with
           | (mrc, w3) =>
             if mrc = -1 then (-1, f1, cork_system_error_set w3)
             else (0, f1, w3)) := by
  simp only [cork_file_mkdir_one, hstat]
  rw [hmiss]
  simp [hrec, cork_path_dirname]

/-- Witness for C5: instantiating the Missing+Recursive unfolding at the
cached-Missing file "a/b" in the all-ENOENT world. -/
theorem mkdir_missing_recursive_witness :
    CORK_FILE_RECURSIVE &&& CORK_FILE_RECURSIVE ≠ 0 ∧
      cork_file_mkdir_one 2 file_c5 493 CORK_FILE_RECURSIVE w_enoent =
        (let parent := cork_path_set_dirname (cork_path_clone file_c5.path)
         let parentStep : Int × World :=
           if parent.length = 0 then (0, w_enoent)
           else
             match cork_file_mkdir_one 1 (cork_file_init parent) 493
                 (CORK_FILE_RECURSIVE ||| CORK_FILE_PERMISSIVE) w_enoent with
             | (rc, _, w2) => (rc, w2)
         match parentStep with
         | (rc, w2) =>
           if rc ≠ 0 then (-1, file_c5, w2)
           else
             match sys_mkdir file_c5.path 493 w2 with
             | (mrc, w3) =>
               if mrc = -1 then (-1, file_c5, cork_system_error_set w3)
               else (0, file_c5, w3)) :=
  ⟨by decide,
    mkdir_missing_recursive 1 493 CORK_FILE_RECURSIVE file_c5 file_c5 w_enoent w_enoent
      rfl rfl (by decide)⟩

/-- C10: `cork_file_iterate_directory` leaves the directory File it was
given entirely unchanged — same path buffer, same cached classification
tag, same validity flag — whether the call returns success or an error. -/
theorem iterate_directory_preserves_dir_file
    (file : cork_file) (visitor : Visitor) (w : World) :
    (cork_file_iterate_directory file visitor w).2.1.path = file.path ∧
      (cork_file_iterate_directory file visitor w).2.1.type = file.type ∧
      (cork_file_iterate_directory file visitor w).2.1.has_stat = file.has_stat := by
  unfold cork_file_iterate_directory
  cases hop : w.opendirFail file.path with
  | some e => exact ⟨rfl, rfl, rfl⟩
  | none =>
    rcases hl : w.listing file.path with ⟨names, term⟩
    rcases hloop : iterLoop visitor (cork_path_clone file.path).length names term
        (cork_file_init (cork_path_clone file.path)) { w with errno := 0 } [] with ⟨rc, w1, reads⟩
    simp only [hl, hloop]
    cases hcl : w1.closedirFail file.path with
    | some e => exact ⟨rfl, rfl, rfl⟩
    | none => exact ⟨rfl, rfl, rfl⟩

theorem append_take_restore (p more : CPath) (h : more.head? ≠ some '/') :
    (cork_path_append p more).take p.length = p := by
  unfold cork_path_append
  by_cases hm : more = []
  · rw [if_pos hm]
    exact List.take_length p
  · rw [if_neg hm, if_neg h]
    by_cases hp : p ≠ [] ∧ p.getLast? ≠ some '/'
    · rw [if_pos hp]
      rw [show p ++ '/' :: more = p ++ ('/' :: more) from rfl]
      exact List.take_left p ('/' :: more)
    · rw [if_neg hp]
      exact List.take_left p more

theorem iterLoop_discipline (visitor : Visitor) (p : CPath)
    (hpure : ∀ c nm w', visitor c nm w' = (0, w')) :
    ∀ (names : List CPath) (term : ListTerm) (child : cork_file) (w : World)
      (reads : List Nat),
      child.path = p → child.has_stat = false → w.errno = 0 →
      (∀ nm ∈ names, statGood (w.fs (cork_path_append p nm)) = true) →
      (∀ nm ∈ names, nm.head? ≠ some '/') →
      (∀ r ∈ reads, r = 0) →
      (∀ r ∈ (iterLoop visitor p.length names term child w reads).2.2, r = 0) ∧
        (iterLoop visitor p.length names term child w reads).2.1.closedirFail =
          w.closedirFail ∧
        (term = ListTerm.eof →
          (iterLoop visitor p.length names term child w reads).1 = 0 ∧
            (iterLoop visitor p.length names term child w reads).2.1.corkErr = w.corkErr) ∧
        (∀ e, term = ListTerm.fail e → e ≠ 0 →
          (iterLoop visitor p.length names term child w reads).1 = -1 ∧
            (iterLoop visitor p.length names term child w reads).2.1.corkErr = some e) := by
  intro names
  induction names with
  | nil =>
    intro term child w reads hpath hns herr hgood hslash hreads
    have hreads1 : ∀ r ∈ reads ++ [w.errno], r = 0 := by
      intro r hr
      rcases List.mem_append.mp hr with h | h
      · exact hreads r h
      · rw [herr] at h
        simpa using h
    cases term with
    | eof =>
      have hres : iterLoop visitor p.length [] ListTerm.eof child w reads =
          (0, w, reads ++ [w.errno]) := by
        simp only [iterLoop]
        rw [if_neg (not_not_intro herr)]
      rw [hres]
      refine ⟨hreads1, rfl, fun _ => ⟨rfl, rfl⟩, ?_⟩
      intro e heq
      cases heq
    | fail e =>
      by_cases he : e = 0
      · have hres : iterLoop visitor p.length [] (ListTerm.fail e) child w reads =
            (0, { w with errno := e }, reads ++ [w.errno]) := by
          simp only [iterLoop]
          rw [if_neg (not_not_intro he)]
        rw [hres]
        refine ⟨hreads1, rfl, ?_, ?_⟩
        · intro heq
          cases heq
        · intro e' heq hne
          cases heq
          exact absurd he hne
      · have hres : iterLoop visitor p.length [] (ListTerm.fail e) child w reads =
            (-1, cork_system_error_set { w with errno := e }, reads ++ [w.errno]) := by
          simp only [iterLoop]
          rw [if_pos he]
        rw [hres]
        refine ⟨hreads1, rfl, ?_, ?_⟩
        · intro heq
          cases heq
        · intro e' heq hne
          cases heq
          exact ⟨rfl, rfl⟩
  | cons name rest ih =>
    intro term child w reads hpath hns herr hgood hslash hreads
    have hreads1 : ∀ r ∈ reads ++ [w.errno], r = 0 := by
      intro r hr
      rcases List.mem_append.mp hr with h | h
      · exact hreads r h
      · rw [herr] at h
        simpa using h
    by_cases hps : name = ['.'] ∨ name = ['.', '.']
    · have hres : iterLoop visitor p.length (name :: rest) term child w reads =
          iterLoop visitor p.length rest term child w (reads ++ [w.errno]) := by
        simp only [iterLoop]
        rw [if_pos hps]
      rw [hres]
      exact ih term child w (reads ++ [w.errno]) hpath hns herr
        (fun nm hm => hgood nm (List.mem_cons_of_mem _ hm))
        (fun nm hm => hslash nm (List.mem_cons_of_mem _ hm)) hreads1
    · have hsl : name.head? ≠ some '/' := hslash name (List.mem_cons_self _ _)
      have hpx : ({ child with path := cork_path_append child.path name } : cork_file).path
          = cork_path_append p name := by
        show cork_path_append child.path name = cork_path_append p name
        rw [hpath]
      have hrestore : (cork_path_append p name).take p.length = p :=
        append_take_restore p name hsl
      have hgname := hgood name (List.mem_cons_self _ _)
      cases hfs : w.fs (cork_path_append p name) with
      | found m =>
        have hstat := stat_found { child with path := cork_path_append child.path name } w m
          hns (by rw [hpx]; exact hfs)
        simp only [iterLoop, hstat, hpure, if_neg hps]
        apply ih term
        · show (cork_path_append child.path name).take p.length = p
          rw [hpath]
          exact hrestore
        · rfl
        · rfl
        · intro nm hm
          exact hgood nm (List.mem_cons_of_mem _ hm)
        · intro nm hm
          exact hslash nm (List.mem_cons_of_mem _ hm)
        · exact hreads1
      | failed e =>
        rw [hfs] at hgname
        have he : e = ENOENT ∨ e = ENOTDIR := by
          simpa [statGood] using hgname
        have hstat := stat_missing { child with path := cork_path_append child.path name } w e
          hns (by rw [hpx]; exact hfs) he
        simp only [iterLoop, hstat, hpure, if_neg hps]
        apply ih term
        · show (cork_path_append child.path name).take p.length = p
          rw [hpath]
          exact hrestore
        · rfl
        · rfl
        · intro nm hm
          exact hgood nm (List.mem_cons_of_mem _ hm)
        · intro nm hm
          exact hslash nm (List.mem_cons_of_mem _ hm)
        · exact hreads1

/-- C1: in `cork_file_iterate_directory`, errno is cleared before the first
read and re-cleared after every processed entry, so every `readdir` call
observes errno = 0 (the recorded read trace is all zeroes, even though a
child stat may have set errno to ENOENT while classifying a Missing entry);
and when `readdir` returns the NULL sentinel, errno is checked: a listing
that ends in a read failure with a non-zero errno makes the walk fail with
a SystemError wrapping that errno, while a normal end of listing returns
success. -/
theorem iterate_directory_errno_discipline
    (file : cork_file) (visitor : Visitor) (w : World)
    (names : List CPath) (term : ListTerm)
    (hpure : ∀ c nm w', visitor c nm w' = (0, w'))
    (hopen : w.opendirFail file.path = none)
    (hclose : w.closedirFail file.path = none)
    (hlist : w.listing file.path = (names, term))
    (hgood : ∀ nm ∈ names, statGood (w.fs (cork_path_append file.path nm)) = true)
    (hslash : ∀ nm ∈ names, nm.head? ≠ some '/') :
    (∀ r ∈ (cork_file_iterate_directory file visitor w).2.2.2, r = 0) ∧
      (term = ListTerm.eof → (cork_file_iterate_directory file visitor w).1 = 0) ∧
      (∀ e, term = ListTerm.fail e → e ≠ 0 →
        (cork_file_iterate_directory file visitor w).1 = -1 ∧
          (cork_file_iterate_directory file visitor w).2.2.1.corkErr = some e) := by
  have hd := iterLoop_discipline visitor (cork_path_clone file.path) hpure names term
    (cork_file_init (cork_path_clone file.path)) { w with errno := 0 } []
    rfl rfl rfl (fun nm hm => hgood nm hm) hslash (fun r hr => by simp at hr)
  unfold cork_file_iterate_directory
  rw [hopen, hlist]
  rcases hloop : iterLoop visitor (cork_path_clone file.path).length names term
      (cork_file_init (cork_path_clone file.path)) { w with errno := 0 } [] with ⟨rc, w1, reads⟩
  rw [hloop] at hd
  obtain ⟨hr0, hcl, heof, hfail⟩ := hd
  have hcl1 : w1.closedirFail = w.closedirFail := hcl
  simp only [hloop, hcl1, hclose]
  refine ⟨fun r hr => hr0 r hr, ?_, ?_⟩
  · intro heq
    exact (heof heq).1
  · intro e heq hne
    exact ⟨(hfail e heq hne).1, (hfail e heq hne).2⟩

/-- Witness for C1: walking "d" with a trivial visitor over a listing that
ends in a readdir failure with errno 5 observes errno = 0 at every read
and fails with a SystemError wrapping 5. -/
theorem iterate_directory_errno_discipline_witness :
    (5 : Nat) ≠ 0 ∧
      (∀ r ∈ (cork_file_iterate_directory file_c1 (fun _ _ w' => (0, w')) w_c1).2.2.2, r = 0) ∧
      (cork_file_iterate_directory file_c1 (fun _ _ w' => (0, w')) w_c1).1 = -1 ∧
      (cork_file_iterate_directory file_c1 (fun _ _ w' => (0, w')) w_c1).2.2.1.corkErr =
        some 5 := by
  have h := iterate_directory_errno_discipline file_c1 (fun _ _ w' => (0, w')) w_c1
    [['.'], ['a']] (ListTerm.fail 5) (fun _ _ _ => rfl) rfl rfl rfl
    (by intro nm hm; fin_cases hm <;> rfl) (by intro nm hm; fin_cases hm <;> decide)
  exact ⟨by decide, h.1, (h.2.2 5 rfl (by decide)).1, (h.2.2 5 rfl (by decide)).2⟩
